import Mathlib

/-!
# Libsync: the synchronization client (src/client.cxx) and the crypto length test

A shallow embedding of `Client::merge_metadata` and `Client::file_master`
together with the collaborators they call, and of the expectations of
`TEST(CryptTest, EncLen)` (src/test/crypt.cxx).
-/

namespace Libsync

/-! ## Data model -/

/-- Record `Metadata::Data`: the modification time and the tombstone flag of one path. -/
structure Data where
  modified : Nat
  deleted : Bool
deriving DecidableEq, Repr

/-- Modelled from the spec: the class `Metadata` (metadata.hxx and metadata.cxx are not
under src/). It is an iterable mapping from relative path to `Data`; the list is the
iteration order of `begin()` .. `end()`. -/
structure Metadata where
  files : List (String × Data)
deriving DecidableEq, Repr

/-- Modelled from the spec: `Metadata::get_file`, which returns the record stored for the
path and "a default-deleted record if unknown". The time of that default record is taken
to be 0, the epoch (scenario S4 of the spec needs it below 5). -/
def Metadata.get_file (m : Metadata) (filename : String) : Data :=
  match m.files.lookup filename with
  | some d => d
  | none => { modified := 0, deleted := true }

/-- Record `Msg` of client.hxx as used by client.cxx: `filename`, `remote`, `file_data`. -/
structure Msg where
  filename : String
  remote : Bool
  file_data : Data
deriving DecidableEq, Repr

/-! ## Client::merge_metadata (client.cxx lines 131-182) -/

/-- First loop of `merge_metadata`: iterate over the local metadata, skip (`continue`)
every entry with `it->second.modified <= rem.modified`, push a local message otherwise. -/
def merge_metadata_local (remote : Metadata) : List (String × Data) → List Msg → List Msg
  | [], messages => messages
  | it :: rest, messages =>
    let rem := remote.get_file it.1
    if it.2.modified ≤ rem.modified then
      merge_metadata_local remote rest messages
    else
      let msg : Msg := { filename := it.1, remote := false, file_data := it.2 }
      merge_metadata_local remote rest (messages ++ [msg])

/-- Second loop of `merge_metadata`: iterate over the remote metadata, skip every entry
with `it->second.modified <= local.modified`, push a remote message otherwise. -/
def merge_metadata_remote (local_meta : Metadata) : List (String × Data) → List Msg → List Msg
  | [], messages => messages
  | it :: rest, messages =>
    let loc := local_meta.get_file it.1
    if it.2.modified ≤ loc.modified then
      merge_metadata_remote local_meta rest messages
    else
      let msg : Msg := { filename := it.1, remote := true, file_data := it.2 }
      merge_metadata_remote local_meta rest (messages ++ [msg])

/-- Function `Client::merge_metadata`: `local_meta` is the member `meta`, `messages` the
queue on entry; the result is the queue on return. The DEBUG log lines and the lock and
notify around each push do not change the queue and are left out. -/
def merge_metadata (local_meta remote : Metadata) (messages : List Msg) : List Msg :=
  merge_metadata_remote local_meta remote.files
    (merge_metadata_local remote local_meta.files messages)

/-- Local metadata of scenario S4. -/
def s4_local : Metadata :=
  { files := [("x", { modified := 10, deleted := false }),
              ("y", { modified := 20, deleted := false })] }

/-- Remote metadata of scenario S4. -/
def s4_remote : Metadata :=
  { files := [("x", { modified := 15, deleted := false }),
              ("y", { modified := 20, deleted := false }),
              ("z", { modified := 5, deleted := false })] }

/-! ## Crypt::enc_len (expectations of src/test/crypt.cxx lines 29-37) -/

/-- The five expectations of `TEST(CryptTest, EncLen)` about a length function. -/
def EncLenTest (f : Nat → Nat) : Prop :=
  f 0 = 32 ∧ f 2 = 32 ∧ f 5 = 32 ∧ f 16 = 48 ∧ f 110 = 128

instance (f : Nat → Nat) : Decidable (EncLenTest f) := by
  unfold EncLenTest; infer_instance

/-- Modelled from the spec: `Crypt::enc_len` (crypt.cxx is not under src/), after the
design the spec gives for it, "block cipher in padded mode with a one-block IV
prepended", block size 16: one IV block, then the plaintext padded up to the next block
boundary strictly above its length. -/
def enc_len (n : Nat) : Nat :=
  16 + (n / 16 + 1) * 16

/-- The rule in the words of the spec sentence: "the smallest multiple of 16 strictly
greater than n, except that n < 32 still returns 32". -/
def enc_len_as_worded (n : Nat) : Nat :=
  if n < 32 then 32 else (n / 16 + 1) * 16

/-! ## Collaborators of Client::file_master -/

/-- Levels of `Log` that client.cxx passes to `global_log.message`. -/
inductive LogLevel
  | DEBUG
  | NOTICE
  | WARNING
deriving DecidableEq, Repr

/-- What the collaborators throw: client.cxx throws and catches exactly `const char *`
and `std::string`. -/
inductive Exn
  | cstr (e : String)
  | str (e : String)
deriving DecidableEq, Repr

/-- Text carried by an exception, as handed to `global_log.message(e, Log::WARNING)`. -/
def Exn.text : Exn → String
  | .cstr e => e
  | .str e => e

/-- One observable call made by `file_master`: the watcher (`wd`), the connector (`conn`),
the filesystem (`File::recursive_remove`, the two fstreams, `stat`, `utime`) and the log. -/
inductive Call
  | log (text : String) (level : LogLevel)
  | disregard (path : String)
  | regard (path : String)
  | recursive_remove (path : String)
  | ofstream_open (path : String)
  | get_file (filename : String) (modified : Nat)
  | ofstream_close (path : String)
  | utime (path : String) (actime modtime : Nat)
  | delete_file (filename : String) (modified : Nat)
  | ifstream_open (path : String)
  | stat (path : String)
  | push_file (filename : String) (mtime size : Nat)
  | ifstream_close (path : String)
deriving DecidableEq, Repr

/-- Whether the call is a line of the log (not a watcher, connector or filesystem call). -/
def Call.is_log : Call → Bool
  | .log _ _ => true
  | _ => false

/-- The calls that are not log lines, in order. -/
def side_effects (calls : List Call) : List Call :=
  calls.filter (fun c => !c.is_log)

/-- The world outside the apply thread. The watcher, connector and `File` classes are not
under src/, so what their calls do is a parameter: `throws hist c` tells whether call `c`,
made after the calls `hist`, throws; `stat` gives `(st_mtime, st_size)`; `time` is
`time(NULL)`. -/
structure World where
  throws : List Call → Call → Option Exn
  stat : List Call → String → Nat × Nat
  time : List Call → Nat

/-- A world in which no collaborator call throws. -/
def World.quiet (w : World) : Prop :=
  ∀ hist c, w.throws hist c = none

/-- The world where nothing throws, `stat` answers `(0, 0)` and the clock reads 0. -/
def calm_world : World :=
  { throws := fun _ _ => none, stat := fun _ _ => (0, 0), time := fun _ => 0 }

/-- Either a value or an exception in flight. -/
inductive Result (α : Type)
  | ok (a : α)
  | thrown (e : Exn)
deriving DecidableEq, Repr

/-- What a piece of code did: the calls it made, in order, and how it ended. -/
structure Res (α : Type) where
  calls : List Call
  val : Result α
deriving DecidableEq, Repr

/-- A piece of code of the apply thread: from the world and the calls made so far to the
calls it makes and its result. -/
def Act (α : Type) : Type :=
  World → List Call → Res α

/-- Code that makes no call and yields `a`. -/
def Act.pure {α : Type} (a : α) : Act α :=
  fun _ _ => { calls := [], val := .ok a }

/-- Sequencing: an exception thrown by the first part skips the second. -/
def Act.bind {α β : Type} (x : Act α) (f : α → Act β) : Act β :=
  fun w hist =>
    let r := x w hist
    match r.val with
    | .thrown e => { calls := r.calls, val := .thrown e }
    | .ok a =>
      let s := f a w (hist ++ r.calls)
      { calls := r.calls ++ s.calls, val := s.val }

instance : Monad Act where
  pure := Act.pure
  bind := Act.bind

/-- A call of a method of the watcher, the connector or `File`, which may throw. -/
def call (c : Call) : Act Unit :=
  fun w hist =>
    match w.throws hist c with
    | some e => { calls := [c], val := .thrown e }
    | none => { calls := [c], val := .ok () }

/-- A call that cannot throw: the log, the fstream members, and the C functions. -/
def emit (c : Call) : Act Unit :=
  fun _ _ => { calls := [c], val := .ok () }

/-- Call `stat(full_name.c_str(), &stats)`; yields `(st_mtime, st_size)`. -/
def stat (path : String) : Act (Nat × Nat) :=
  fun w hist => { calls := [.stat path], val := .ok (w.stat hist path) }

/-- Call `time(NULL)`. -/
def time : Act Nat :=
  fun w hist => { calls := [], val := .ok (w.time hist) }

/-- Block `try { body } catch (const char * e) { handler } catch (const std::string & e)
{ handler }`: both kinds of exception are handled. -/
def try_catch (body : Act Unit) (handler : Exn → Act Unit) : Act Unit :=
  fun w hist =>
    let r := body w hist
    match r.val with
    | .ok a => { calls := r.calls, val := .ok a }
    | .thrown e =>
      let s := handler e w (hist ++ r.calls)
      { calls := r.calls ++ s.calls, val := s.val }

/-! ## Client::file_master (client.cxx lines 184-278) -/

/-- How the body of the loop ended for a message: at the `continue` of the staleness
check, or at the "Finished Processing" line. -/
inductive Disposition
  | skipped
  | finished
deriving DecidableEq, Repr

/-- Body of the loop of `file_master` for the popped message `msg` (lines 201-272).
`local_meta` is the member `meta`; the body reads it and never writes it. -/
def file_master_body (local_meta : Metadata) (sync_dir : String) (msg : Msg) :
    Act Disposition := do
  let data := local_meta.get_file msg.filename
  if msg.file_data.deleted == data.deleted &&
      decide (msg.file_data.modified < data.modified) then
    emit (.log ("Skipped Event: " ++ msg.filename) .NOTICE)
    pure .skipped
  else
    let full_name := sync_dir ++ msg.filename
    if msg.remote then
      call (.disregard full_name)
      if msg.file_data.deleted then
        emit (.log ("Remote Delete: " ++ full_name) .NOTICE)
        call (.recursive_remove full_name)
      else
        emit (.log ("Remote Modify: " ++ full_name) .NOTICE)
        emit (.ofstream_open full_name)
        call (.get_file msg.filename msg.file_data.modified)
        emit (.ofstream_close full_name)
        let now ← time
        emit (.utime full_name now msg.file_data.modified)
      call (.regard full_name)
    else
      if msg.file_data.deleted then
        emit (.log ("Local Delete: " ++ full_name) .NOTICE)
        call (.delete_file msg.filename msg.file_data.modified)
      else
        emit (.log ("Local Modify: " ++ full_name) .NOTICE)
        emit (.ifstream_open full_name)
        let stats ← stat full_name
        try_catch (call (.push_file msg.filename stats.1 stats.2))
          (fun e => emit (.log e.text .WARNING))
        emit (.ifstream_close full_name)
    emit (.log ("Finished Processing: " ++ full_name) .NOTICE)
    pure .finished

/-- How a run of the apply thread ended: the loop condition saw `done` and the function
returned; the thread is blocked in `message_cond.wait` on an empty queue; or an
exception left `file_master`, which ends the thread (and, for a `std::thread`, the
process, through `std::terminate`). -/
inductive Status
  | exited
  | waiting
  | terminated (e : Exn)
deriving DecidableEq, Repr

/-- A run of `file_master` from one evaluation of the loop condition on: how it ended,
the queue it left, the calls it made, and each popped message with the way its body
ended. -/
structure Run where
  status : Status
  messages : List Msg
  calls : List Call
  handled : List (Msg × Result Disposition)
deriving DecidableEq, Repr

/-- Function `Client::file_master`, started at the loop condition `while(!done)` with the
queue `messages` and the calls `hist` already made. `done` is the value of the member the
condition reads; no other thread runs meanwhile, so the queue only shrinks and a wait on
the empty queue is where the run stops. -/
def file_master (w : World) (local_meta : Metadata) (sync_dir : String) (done : Bool) :
    List Msg → List Call → Run
  | [], _ =>
    if done then { status := .exited, messages := [], calls := [], handled := [] }
    else { status := .waiting, messages := [], calls := [], handled := [] }
  | msg :: rest, hist =>
    if done then
      { status := .exited, messages := msg :: rest, calls := [], handled := [] }
    else
      let r := file_master_body local_meta sync_dir msg w hist
      match r.val with
      | .thrown e =>
        { status := .terminated e, messages := rest, calls := r.calls,
          handled := [(msg, .thrown e)] }
      | .ok d =>
        let run := file_master w local_meta sync_dir done rest (hist ++ r.calls)
        { status := run.status, messages := run.messages, calls := r.calls ++ run.calls,
          handled := (msg, .ok d) :: run.handled }

/-- Staleness test of lines 203-204 for a message against the current record. -/
def stale (cur : Data) (msg : Msg) : Prop :=
  msg.file_data.deleted = cur.deleted ∧ msg.file_data.modified < cur.modified

instance (cur : Data) (msg : Msg) : Decidable (stale cur msg) := by
  unfold stale; infer_instance

/-- The result `r` of the body shows that `msg` was processed: the body did not end at
the `continue` of the staleness check, and it entered the branch of the message and made
the calls that branch starts with. For a remote message that is `wd.disregard` of the
full name, the first call of all; for a local deletion the "Local Delete" line and
`conn->delete_file(filename, modified)`; for a local modification the "Local Modify"
line, the opening of the file, `stat` and `conn->push_file` of the filename. -/
def processed (sync_dir : String) (msg : Msg) (r : Res Disposition) : Prop :=
  r.val ≠ .ok .skipped ∧
  if msg.remote = true then
    ∃ rest, r.calls = Call.disregard (sync_dir ++ msg.filename) :: rest
  else if msg.file_data.deleted = true then
    ∃ rest, r.calls =
      Call.log ("Local Delete: " ++ (sync_dir ++ msg.filename)) .NOTICE ::
        Call.delete_file msg.filename msg.file_data.modified :: rest
  else
    ∃ mtime size rest, r.calls =
      Call.log ("Local Modify: " ++ (sync_dir ++ msg.filename)) .NOTICE ::
        Call.ifstream_open (sync_dir ++ msg.filename) ::
          Call.stat (sync_dir ++ msg.filename) ::
            Call.push_file msg.filename mtime size :: rest

/-! ## Scenarios -/

/-- Local metadata of scenario S3: `c.txt` at time 500, not deleted. -/
def s3_local : Metadata :=
  { files := [("c.txt", { modified := 500, deleted := false })] }

/-- The remote message of scenario S3: `c.txt` at time 300, not deleted. -/
def s3_msg : Msg :=
  { filename := "c.txt", remote := true, file_data := { modified := 300, deleted := false } }

/-- A remote message for `c.txt` with the time and the flag of the record of `s3_local`. -/
def tie_same_flag_msg : Msg :=
  { filename := "c.txt", remote := true, file_data := { modified := 500, deleted := false } }

/-- A remote tombstone for `c.txt` with the time of the record of `s3_local`. -/
def tie_other_flag_msg : Msg :=
  { filename := "c.txt", remote := true, file_data := { modified := 500, deleted := true } }

/-- Metadata of an empty sync directory. -/
def no_files : Metadata :=
  { files := [] }

/-- The remote message of scenario S2: `b.txt` at time 200, not deleted. -/
def s2_msg : Msg :=
  { filename := "b.txt", remote := true, file_data := { modified := 200, deleted := false } }

/-- A world whose connector is closed: `get_file`, `push_file` and `delete_file` throw the
`const char *` "closed"; nothing else throws. -/
def closed_conn_world : World :=
  { throws := fun _ c =>
      match c with
      | .get_file _ _ => some (.cstr "closed")
      | .push_file _ _ _ => some (.cstr "closed")
      | .delete_file _ _ => some (.cstr "closed")
      | _ => none,
    stat := fun _ _ => (0, 0),
    time := fun _ => 0 }

/-- A local deletion of `a.txt` at time 100. -/
def local_delete_msg : Msg :=
  { filename := "a.txt", remote := false, file_data := { modified := 100, deleted := true } }

/-- A local modification of `a.txt` at time 100 (scenario S1). -/
def s1_msg : Msg :=
  { filename := "a.txt", remote := false, file_data := { modified := 100, deleted := false } }

/-- A local modification of `d.txt` at time 150. -/
def local_modify_msg : Msg :=
  { filename := "d.txt", remote := false, file_data := { modified := 150, deleted := false } }

/-- Five pending messages. -/
def five_pending : List Msg :=
  [s1_msg, s2_msg, s3_msg, local_delete_msg, local_modify_msg]

/-! # Theorems -/

/-! ## The startup merge -/

theorem merge_metadata_local_eq (remote : Metadata) (files : List (String × Data))
    (messages : List Msg) :
    merge_metadata_local remote files messages =
      messages ++ (files.filter
        (fun it => decide (it.2.modified > (remote.get_file it.1).modified))).map
        (fun it => { filename := it.1, remote := false, file_data := it.2 }) := by
  induction files generalizing messages with
  | nil => simp [merge_metadata_local]
  | cons it rest ih =>
    by_cases h : it.2.modified ≤ (remote.get_file it.1).modified
    · have hn : ¬ (it.2.modified > (remote.get_file it.1).modified) := by omega
      simp [merge_metadata_local, h, ih, List.filter_cons, hn]
    · have hn : it.2.modified > (remote.get_file it.1).modified := by omega
      simp [merge_metadata_local, h, ih, List.filter_cons, hn]

theorem merge_metadata_remote_eq (local_meta : Metadata) (files : List (String × Data))
    (messages : List Msg) :
    merge_metadata_remote local_meta files messages =
      messages ++ (files.filter
        (fun it => decide (it.2.modified > (local_meta.get_file it.1).modified))).map
        (fun it => { filename := it.1, remote := true, file_data := it.2 }) := by
  induction files generalizing messages with
  | nil => simp [merge_metadata_remote]
  | cons it rest ih =>
    by_cases h : it.2.modified ≤ (local_meta.get_file it.1).modified
    · have hn : ¬ (it.2.modified > (local_meta.get_file it.1).modified) := by omega
      simp [merge_metadata_remote, h, ih, List.filter_cons, hn]
    · have hn : it.2.modified > (local_meta.get_file it.1).modified := by omega
      simp [merge_metadata_remote, h, ih, List.filter_cons, hn]

theorem merge_metadata_eq (local_meta remote : Metadata) (q : List Msg) :
    merge_metadata local_meta remote q =
      q ++
      ((local_meta.files.filter
        (fun it => decide (it.2.modified > (remote.get_file it.1).modified))).map
        (fun it => { filename := it.1, remote := false, file_data := it.2 }) ++
      (remote.files.filter
        (fun it => decide (it.2.modified > (local_meta.get_file it.1).modified))).map
        (fun it => { filename := it.1, remote := true, file_data := it.2 })) := by
  simp [merge_metadata, merge_metadata_local_eq, merge_metadata_remote_eq]

/-- C1: `merge_metadata` leaves the queue equal to the initial queue followed by exactly
one local-origin message per local entry strictly newer than the remote record of its
path, in iteration order, then one remote-origin message per remote entry strictly newer
than the local record of its path, in iteration order; each message carries the path and
the entry. Equal timestamps enqueue nothing. On scenario S4 this is exactly remote-origin
x@15 and remote-origin z@5. -/
theorem merge_metadata_enqueues_exactly :
    (∀ (local_meta remote : Metadata) (q : List Msg),
      merge_metadata local_meta remote q =
        q ++
        (local_meta.files.filter
          (fun it => decide (it.2.modified > (remote.get_file it.1).modified))).map
          (fun it => { filename := it.1, remote := false, file_data := it.2 }) ++
        (remote.files.filter
          (fun it => decide (it.2.modified > (local_meta.get_file it.1).modified))).map
          (fun it => { filename := it.1, remote := true, file_data := it.2 })) ∧
    merge_metadata s4_local s4_remote [] =
      [{ filename := "x", remote := true, file_data := { modified := 15, deleted := false } },
       { filename := "z", remote := true, file_data := { modified := 5, deleted := false } }] := by
  refine ⟨?_, by decide⟩
  intro local_meta remote q
  simp [merge_metadata_eq]

theorem lookup_of_mem_nodup (files : List (String × Data)) (p : String) (d : Data)
    (hn : (files.map Prod.fst).Nodup) (hm : (p, d) ∈ files) :
    files.lookup p = some d := by
  induction files with
  | nil => simp at hm
  | cons it rest ih =>
    obtain ⟨k, v⟩ := it
    simp only [List.map_cons, List.nodup_cons] at hn
    rcases List.mem_cons.mp hm with h | h
    · cases h
      simp [List.lookup]
    · have hne : p ≠ k := by
        intro he
        apply hn.1
        rw [← he]
        exact List.mem_map.mpr ⟨(p, d), h, rfl⟩
      have hb : (p == k) = false := by simpa using hne
      simp [List.lookup, hb, ih hn.2 h]

theorem get_file_of_mem_nodup (m : Metadata) (p : String) (d : Data)
    (hn : (m.files.map Prod.fst).Nodup) (hm : (p, d) ∈ m.files) :
    m.get_file p = d := by
  simp [Metadata.get_file, lookup_of_mem_nodup m.files p d hn hm]

theorem countP_key_le_one (files : List (String × Data)) (p : String)
    (f : String × Data → Bool) (hn : (files.map Prod.fst).Nodup) :
    (files.filter f).countP (fun it => it.1 == p) ≤ 1 := by
  induction files with
  | nil => simp
  | cons it rest ih =>
    simp only [List.map_cons, List.nodup_cons] at hn
    have hr := ih hn.2
    by_cases hp : it.1 = p
    · have hz : (rest.filter f).countP (fun it => it.1 == p) = 0 := by
        rw [List.countP_eq_zero]
        intro a ha
        have ha2 : a ∈ rest := (List.mem_filter.mp ha).1
        have : a.1 ≠ it.1 := by
          intro he
          apply hn.1
          rw [← he]
          exact List.mem_map.mpr ⟨a, ha2, rfl⟩
        simpa [hp] using this
      cases hf : f it <;> simp [List.filter_cons, hf, List.countP_cons, hz, hp]
    · cases hf : f it <;> simp [List.filter_cons, hf, List.countP_cons, hp, hr]

/-- C10: with unique path keys in the local and in the remote metadata, `merge_metadata`
enqueues at most one message for any path `p`; in particular never both a local-origin
and a remote-origin message for the same path. -/
theorem merge_metadata_at_most_one_per_path (local_meta remote : Metadata) (q : List Msg)
    (p : String)
    (hl : (local_meta.files.map Prod.fst).Nodup)
    (hr : (remote.files.map Prod.fst).Nodup) :
    ((merge_metadata local_meta remote q).drop q.length).countP
      (fun m => m.filename == p) ≤ 1 := by
  rw [merge_metadata_eq, List.drop_left, List.countP_append, List.countP_map,
    List.countP_map]
  have ha := countP_key_le_one local_meta.files p
    (fun it => decide (it.2.modified > (remote.get_file it.1).modified)) hl
  have hb := countP_key_le_one remote.files p
    (fun it => decide (it.2.modified > (local_meta.get_file it.1).modified)) hr
  simp only [Function.comp_def]
  by_contra hcon
  have ha1 : 0 < (local_meta.files.filter
      (fun it => decide (it.2.modified > (remote.get_file it.1).modified))).countP
      (fun it => it.1 == p) := by omega
  have hb1 : 0 < (remote.files.filter
      (fun it => decide (it.2.modified > (local_meta.get_file it.1).modified))).countP
      (fun it => it.1 == p) := by omega
  obtain ⟨a, hamem, hap⟩ := List.countP_pos_iff.mp ha1
  obtain ⟨b, hbmem, hbp⟩ := List.countP_pos_iff.mp hb1
  obtain ⟨ka, l⟩ := a
  obtain ⟨kb, r⟩ := b
  have hka : ka = p := by simpa using hap
  have hkb : kb = p := by simpa using hbp
  rw [hka] at hamem
  rw [hkb] at hbmem
  obtain ⟨hal, hagt⟩ := List.mem_filter.mp hamem
  obtain ⟨hbr, hbgt⟩ := List.mem_filter.mp hbmem
  have hgl := get_file_of_mem_nodup local_meta p l hl hal
  have hgr := get_file_of_mem_nodup remote p r hr hbr
  simp only [hgr, hgl, decide_eq_true_eq] at hagt hbgt
  omega

/-- C10 at scenario S4 and path x: one message only. -/
theorem merge_metadata_at_most_one_per_path_witness :
    (s4_local.files.map Prod.fst).Nodup ∧ (s4_remote.files.map Prod.fst).Nodup ∧
    ((merge_metadata s4_local s4_remote []).drop ([] : List Msg).length).countP
      (fun m => m.filename == "x") ≤ 1 :=
  ⟨by decide, by decide,
    merge_metadata_at_most_one_per_path s4_local s4_remote [] "x" (by decide) (by decide)⟩

/-! ## The crypto length -/

/-- C9 (as worded, refuted): the worded rule gives 32 at 16 and 112 at 110, where
`enc_len` gives 48 and 128; so the worded rule fails `TEST(CryptTest, EncLen)`, whose
values the same claim lists. -/
theorem enc_len_worded_rule_fails_test :
    enc_len_as_worded 16 = 32 ∧ enc_len 16 = 48 ∧
    enc_len_as_worded 110 = 112 ∧ enc_len 110 = 128 ∧
    ¬ EncLenTest enc_len_as_worded := by
  decide

theorem enc_len_as_worded_least (n : Nat) (h : 32 ≤ n) :
    IsLeast {m : Nat | 16 ∣ m ∧ n < m} (enc_len_as_worded n) := by
  have hn : ¬ n < 32 := by omega
  simp only [enc_len_as_worded, hn, if_false]
  constructor
  · refine ⟨Dvd.intro_left _ rfl, ?_⟩
    have := Nat.div_add_mod n 16
    have := Nat.mod_lt n (show 16 > 0 by decide)
    omega
  · rintro m ⟨⟨k, hk⟩, hlt⟩
    have := Nat.div_add_mod n 16
    have := Nat.mod_lt n (show 16 > 0 by decide)
    omega

/-- C9 (amended): `enc_len n` is one IV block plus the padded plaintext, that is the
smallest multiple of 16 strictly greater than `n + 16`; it is 32 exactly when `n < 16`
and never below 32; and it meets the five expectations of `TEST(CryptTest, EncLen)`:
0, 2 and 5 give 32, 16 gives 48, 110 gives 128. -/
theorem enc_len_iv_plus_padded (n : Nat) :
    IsLeast {m : Nat | 16 ∣ m ∧ n + 16 < m} (enc_len n) ∧
    (enc_len n = 32 ↔ n < 16) ∧ 32 ≤ enc_len n ∧ EncLenTest enc_len := by
  have h1 := Nat.div_add_mod n 16
  have h2 := Nat.mod_lt n (show 16 > 0 by decide)
  refine ⟨⟨⟨?_, ?_⟩, ?_⟩, ?_, ?_, by decide⟩
  · exact ⟨n / 16 + 2, by unfold enc_len; ring⟩
  · show n + 16 < enc_len n
    unfold enc_len; omega
  · rintro m ⟨⟨k, hk⟩, hlt⟩
    unfold enc_len; omega
  · unfold enc_len; omega
  · unfold enc_len; omega

/-! ## The apply thread: one message -/

section
variable {β : Type}

theorem pure_run (b : β) (w : World) (hist : List Call) :
    (pure b : Act β) w hist = { calls := [], val := .ok b } := rfl

theorem emit_bind (c : Call) (f : Unit → Act β) (w : World) (hist : List Call) :
    (emit c >>= f) w hist =
      { calls := c :: (f () w (hist ++ [c])).calls, val := (f () w (hist ++ [c])).val } := rfl

theorem call_bind (c : Call) (f : Unit → Act β) (w : World) (hist : List Call) :
    (call c >>= f) w hist =
      match w.throws hist c with
      | some e => { calls := [c], val := .thrown e }
      | none =>
        { calls := c :: (f () w (hist ++ [c])).calls, val := (f () w (hist ++ [c])).val } := by
  show Act.bind (call c) f w hist = _
  unfold Act.bind call
  cases w.throws hist c <;> rfl

theorem time_bind (f : Nat → Act β) (w : World) (hist : List Call) :
    (time >>= f) w hist = f (w.time hist) w hist := by
  show Act.bind time f w hist = _
  simp [Act.bind, time]

theorem stat_bind (path : String) (f : Nat × Nat → Act β) (w : World) (hist : List Call) :
    (stat path >>= f) w hist =
      { calls := .stat path :: (f (w.stat hist path) w (hist ++ [.stat path])).calls,
        val := (f (w.stat hist path) w (hist ++ [.stat path])).val } := rfl

theorem try_push_bind (c : Call) (f : Unit → Act β) (w : World) (hist : List Call) :
    (try_catch (call c) (fun e => emit (.log e.text .WARNING)) >>= f) w hist =
      match w.throws hist c with
      | some e =>
        { calls := c :: .log e.text .WARNING ::
            (f () w (hist ++ [c, .log e.text .WARNING])).calls,
          val := (f () w (hist ++ [c, .log e.text .WARNING])).val }
      | none =>
        { calls := c :: (f () w (hist ++ [c])).calls, val := (f () w (hist ++ [c])).val } := by
  show Act.bind (try_catch (call c) _) f w hist = _
  unfold Act.bind try_catch call emit
  cases w.throws hist c <;> simp

end

theorem body_stale (w : World) (local_meta : Metadata) (sync_dir : String)
    (hist : List Call) (msg : Msg) (h : stale (local_meta.get_file msg.filename) msg) :
    file_master_body local_meta sync_dir msg w hist =
      { calls := [.log ("Skipped Event: " ++ msg.filename) .NOTICE], val := .ok .skipped } := by
  obtain ⟨h1, h2⟩ := h
  simp [file_master_body, h1, h2, emit_bind, pure_run]

theorem stale_cond_false (cur : Data) (msg : Msg) (h : ¬ stale cur msg) :
    (msg.file_data.deleted == cur.deleted && decide (msg.file_data.modified < cur.modified))
      = false := by
  cases hh : (msg.file_data.deleted == cur.deleted &&
      decide (msg.file_data.modified < cur.modified))
  · rfl
  · simp at hh; exact absurd hh h

theorem body_not_stale (w : World) (local_meta : Metadata) (sync_dir : String)
    (hist : List Call) (msg : Msg) (h : ¬ stale (local_meta.get_file msg.filename) msg) :
    (file_master_body local_meta sync_dir msg w hist).val ≠ .ok .skipped ∧
    side_effects (file_master_body local_meta sync_dir msg w hist).calls ≠ [] := by
  have hc := stale_cond_false _ _ h
  simp only [file_master_body, hc]
  cases hr : msg.remote <;> cases hd : msg.file_data.deleted <;>
    simp only [emit_bind, call_bind, time_bind, stat_bind, try_push_bind, pure_run, if_true,
      if_false, Bool.false_eq_true]
  all_goals (split <;> (try split) <;> (try split))
  all_goals simp [side_effects, Call.is_log]

theorem body_processed (w : World) (local_meta : Metadata) (sync_dir : String)
    (hist : List Call) (msg : Msg) (h : ¬ stale (local_meta.get_file msg.filename) msg) :
    processed sync_dir msg (file_master_body local_meta sync_dir msg w hist) := by
  refine ⟨(body_not_stale w local_meta sync_dir hist msg h).1, ?_⟩
  have hc := stale_cond_false _ _ h
  simp only [file_master_body, hc]
  cases hr : msg.remote <;> cases hd : msg.file_data.deleted <;>
    simp only [emit_bind, call_bind, time_bind, stat_bind, try_push_bind, pure_run, if_true,
      if_false, Bool.false_eq_true]
  · split
    · exact ⟨_, _, _, rfl⟩
    · exact ⟨_, _, _, rfl⟩
  · split
    · exact ⟨_, rfl⟩
    · exact ⟨_, rfl⟩
  · split
    · exact ⟨_, rfl⟩
    · exact ⟨_, rfl⟩
  · split
    · exact ⟨_, rfl⟩
    · exact ⟨_, rfl⟩

theorem body_quiet_not_stale (w : World) (local_meta : Metadata) (sync_dir : String)
    (hist : List Call) (msg : Msg) (hq : w.quiet)
    (h : ¬ stale (local_meta.get_file msg.filename) msg) :
    (file_master_body local_meta sync_dir msg w hist).val = .ok .finished := by
  have hc := stale_cond_false _ _ h
  unfold World.quiet at hq
  simp only [file_master_body, hc]
  cases hr : msg.remote <;> cases hd : msg.file_data.deleted <;>
    simp [emit_bind, call_bind, time_bind, stat_bind, try_push_bind, pure_run, hq]

theorem body_quiet_exact (w : World) (local_meta : Metadata) (sync_dir : String)
    (hist : List Call) (msg : Msg) (hq : w.quiet)
    (h : ¬ stale (local_meta.get_file msg.filename) msg) :
    ∃ now mtime size : Nat,
      file_master_body local_meta sync_dir msg w hist =
        { calls :=
            if msg.remote = true then
              if msg.file_data.deleted = true then
                [Call.disregard (sync_dir ++ msg.filename),
                 Call.log ("Remote Delete: " ++ (sync_dir ++ msg.filename)) .NOTICE,
                 Call.recursive_remove (sync_dir ++ msg.filename),
                 Call.regard (sync_dir ++ msg.filename),
                 Call.log ("Finished Processing: " ++ (sync_dir ++ msg.filename)) .NOTICE]
              else
                [Call.disregard (sync_dir ++ msg.filename),
                 Call.log ("Remote Modify: " ++ (sync_dir ++ msg.filename)) .NOTICE,
                 Call.ofstream_open (sync_dir ++ msg.filename),
                 Call.get_file msg.filename msg.file_data.modified,
                 Call.ofstream_close (sync_dir ++ msg.filename),
                 Call.utime (sync_dir ++ msg.filename) now msg.file_data.modified,
                 Call.regard (sync_dir ++ msg.filename),
                 Call.log ("Finished Processing: " ++ (sync_dir ++ msg.filename)) .NOTICE]
            else
              if msg.file_data.deleted = true then
                [Call.log ("Local Delete: " ++ (sync_dir ++ msg.filename)) .NOTICE,
                 Call.delete_file msg.filename msg.file_data.modified,
                 Call.log ("Finished Processing: " ++ (sync_dir ++ msg.filename)) .NOTICE]
              else
                [Call.log ("Local Modify: " ++ (sync_dir ++ msg.filename)) .NOTICE,
                 Call.ifstream_open (sync_dir ++ msg.filename),
                 Call.stat (sync_dir ++ msg.filename),
                 Call.push_file msg.filename mtime size,
                 Call.ifstream_close (sync_dir ++ msg.filename),
                 Call.log ("Finished Processing: " ++ (sync_dir ++ msg.filename)) .NOTICE],
          val := .ok .finished } := by
  have hc := stale_cond_false _ _ h
  unfold World.quiet at hq
  simp only [file_master_body, hc]
  cases hr : msg.remote <;> cases hd : msg.file_data.deleted <;>
    simp only [emit_bind, call_bind, time_bind, stat_bind, try_push_bind, pure_run, if_true,
      if_false, Bool.false_eq_true, hq]
  · exact ⟨0, _, _, rfl⟩
  · exact ⟨0, 0, 0, trivial⟩
  · exact ⟨_, 0, 0, rfl⟩
  · exact ⟨0, 0, 0, trivial⟩

/-- C2: a popped message is discarded, with no watcher, filesystem or connector call, if
and only if its deleted flag equals the current record's and its time is strictly older;
in every other case (equal times, or differing flags at any time) it is processed: the
body does not end at the skip, and it makes the calls its branch starts with, that is
`disregard` of the full name first of all for a remote message, `delete_file` for a local
deletion, and the opening of the file, `stat` and `push_file` for a local modification;
and when no collaborator call throws it runs the whole branch, to the "Finished
Processing" line. In scenario S3 the remote message `c.txt` at 300 is dropped against the
record at 500. -/
theorem file_master_discards_iff_stale :
    (∀ (w : World) (local_meta : Metadata) (sync_dir : String) (hist : List Call) (msg : Msg),
      (((file_master_body local_meta sync_dir msg w hist).val = .ok .skipped ∧
          side_effects (file_master_body local_meta sync_dir msg w hist).calls = []) ↔
        (msg.file_data.deleted = (local_meta.get_file msg.filename).deleted ∧
          msg.file_data.modified < (local_meta.get_file msg.filename).modified)) ∧
      ((processed sync_dir msg (file_master_body local_meta sync_dir msg w hist) ∧
          side_effects (file_master_body local_meta sync_dir msg w hist).calls ≠ []) ↔
        ¬ (msg.file_data.deleted = (local_meta.get_file msg.filename).deleted ∧
          msg.file_data.modified < (local_meta.get_file msg.filename).modified))) ∧
    (∀ (w : World) (local_meta : Metadata) (sync_dir : String) (hist : List Call) (msg : Msg),
      w.quiet →
      ¬ (msg.file_data.deleted = (local_meta.get_file msg.filename).deleted ∧
          msg.file_data.modified < (local_meta.get_file msg.filename).modified) →
      ∃ now mtime size : Nat,
        file_master_body local_meta sync_dir msg w hist =
          { calls :=
              if msg.remote = true then
                if msg.file_data.deleted = true then
                  [Call.disregard (sync_dir ++ msg.filename),
                   Call.log ("Remote Delete: " ++ (sync_dir ++ msg.filename)) .NOTICE,
                   Call.recursive_remove (sync_dir ++ msg.filename),
                   Call.regard (sync_dir ++ msg.filename),
                   Call.log ("Finished Processing: " ++ (sync_dir ++ msg.filename)) .NOTICE]
                else
                  [Call.disregard (sync_dir ++ msg.filename),
                   Call.log ("Remote Modify: " ++ (sync_dir ++ msg.filename)) .NOTICE,
                   Call.ofstream_open (sync_dir ++ msg.filename),
                   Call.get_file msg.filename msg.file_data.modified,
                   Call.ofstream_close (sync_dir ++ msg.filename),
                   Call.utime (sync_dir ++ msg.filename) now msg.file_data.modified,
                   Call.regard (sync_dir ++ msg.filename),
                   Call.log ("Finished Processing: " ++ (sync_dir ++ msg.filename)) .NOTICE]
              else
                if msg.file_data.deleted = true then
                  [Call.log ("Local Delete: " ++ (sync_dir ++ msg.filename)) .NOTICE,
                   Call.delete_file msg.filename msg.file_data.modified,
                   Call.log ("Finished Processing: " ++ (sync_dir ++ msg.filename)) .NOTICE]
                else
                  [Call.log ("Local Modify: " ++ (sync_dir ++ msg.filename)) .NOTICE,
                   Call.ifstream_open (sync_dir ++ msg.filename),
                   Call.stat (sync_dir ++ msg.filename),
                   Call.push_file msg.filename mtime size,
                   Call.ifstream_close (sync_dir ++ msg.filename),
                   Call.log ("Finished Processing: " ++ (sync_dir ++ msg.filename)) .NOTICE],
            val := .ok .finished }) ∧
    (∀ (w : World) (sync_dir : String) (hist : List Call),
      file_master_body s3_local sync_dir s3_msg w hist =
        { calls := [.log "Skipped Event: c.txt" .NOTICE], val := .ok .skipped }) := by
  refine ⟨?_, ?_, ?_⟩
  · intro w local_meta sync_dir hist msg
    by_cases h : stale (local_meta.get_file msg.filename) msg
    · have hb := body_stale w local_meta sync_dir hist msg h
      have h2 : msg.file_data.deleted = (local_meta.get_file msg.filename).deleted ∧
          msg.file_data.modified < (local_meta.get_file msg.filename).modified := h
      constructor
      · simp [hb, h2, side_effects, Call.is_log]
      · constructor
        · intro hs
          exact absurd (by rw [hb]) hs.1.1
        · intro hs; exact absurd h2 hs
    · have hb := body_not_stale w local_meta sync_dir hist msg h
      have hpr := body_processed w local_meta sync_dir hist msg h
      have h2 : ¬ (msg.file_data.deleted = (local_meta.get_file msg.filename).deleted ∧
          msg.file_data.modified < (local_meta.get_file msg.filename).modified) := h
      constructor
      · constructor
        · intro hs; exact absurd hs.1 hb.1
        · intro hs; exact absurd hs h2
      · constructor
        · intro _; exact h2
        · intro _; exact ⟨hpr, hb.2⟩
  · intro w local_meta sync_dir hist msg hq h
    exact body_quiet_exact w local_meta sync_dir hist msg hq h
  · intro w sync_dir hist
    exact body_stale w s3_local sync_dir hist s3_msg (by decide)

/-- C8 (as worded, refuted): a remote message for `c.txt` whose time and deleted flag
both equal the current record's (500, not deleted) is not discarded: the file is fetched
and written. -/
theorem tie_with_same_flag_is_processed :
    tie_same_flag_msg.file_data.modified =
      (s3_local.get_file tie_same_flag_msg.filename).modified ∧
    tie_same_flag_msg.file_data.deleted =
      (s3_local.get_file tie_same_flag_msg.filename).deleted ∧
    file_master_body s3_local "/sync/" tie_same_flag_msg calm_world [] =
      { calls := [.disregard "/sync/c.txt",
                  .log "Remote Modify: /sync/c.txt" .NOTICE,
                  .ofstream_open "/sync/c.txt",
                  .get_file "c.txt" 500,
                  .ofstream_close "/sync/c.txt",
                  .utime "/sync/c.txt" 0 500,
                  .regard "/sync/c.txt",
                  .log "Finished Processing: /sync/c.txt" .NOTICE],
        val := .ok .finished } := by
  decide

/-- C8 (amended): every message whose time equals the current record's time for its path
is processed, whether its deleted flag differs from the record's or matches it: the body
does not end at the skip, and it makes the calls its branch starts with (`disregard` first
of all for a remote message, `delete_file` for a local deletion, the opening of the file,
`stat` and `push_file` for a local modification). -/
theorem file_master_processes_every_tie (w : World) (local_meta : Metadata)
    (sync_dir : String) (hist : List Call) (msg : Msg)
    (h : msg.file_data.modified = (local_meta.get_file msg.filename).modified) :
    processed sync_dir msg (file_master_body local_meta sync_dir msg w hist) ∧
    side_effects (file_master_body local_meta sync_dir msg w hist).calls ≠ [] := by
  have hs : ¬ stale (local_meta.get_file msg.filename) msg := by
    intro hs
    have := hs.2
    omega
  exact ⟨body_processed w local_meta sync_dir hist msg hs,
    (body_not_stale w local_meta sync_dir hist msg hs).2⟩

/-- C8 (amended) at a tie whose deleted flag differs from the record's. -/
theorem file_master_processes_every_tie_witness :
    tie_other_flag_msg.file_data.modified =
      (s3_local.get_file tie_other_flag_msg.filename).modified ∧
    processed "/sync/" tie_other_flag_msg
      (file_master_body s3_local "/sync/" tie_other_flag_msg calm_world []) ∧
    side_effects (file_master_body s3_local "/sync/" tie_other_flag_msg calm_world []).calls
      ≠ [] :=
  ⟨by decide,
    file_master_processes_every_tie calm_world s3_local "/sync/" [] tie_other_flag_msg
      (by decide)⟩

/-- C4: for a remote-origin message that is not stale, in a world where no collaborator
call throws, the body runs to the end and its side effects are exactly
`disregard(sync_dir + filename)`, then the filesystem mutation (the recursive removal
when deleted; otherwise open for write, `get_file(filename, modified, sink)`, close and
`utime` with the message's time as modification time), then `regard` of the same path.
Every mutation lies strictly between the two and no `push_file` or `delete_file` is
made. -/
theorem remote_apply_brackets_mutation (w : World) (local_meta : Metadata)
    (sync_dir : String) (hist : List Call) (msg : Msg)
    (hq : w.quiet) (hr : msg.remote = true)
    (hs : ¬ stale (local_meta.get_file msg.filename) msg) :
    (file_master_body local_meta sync_dir msg w hist).val = .ok .finished ∧
    ∃ now : Nat,
      side_effects (file_master_body local_meta sync_dir msg w hist).calls =
        Call.disregard (sync_dir ++ msg.filename) ::
          ((if msg.file_data.deleted = true then
              [Call.recursive_remove (sync_dir ++ msg.filename)]
            else
              [Call.ofstream_open (sync_dir ++ msg.filename),
               Call.get_file msg.filename msg.file_data.modified,
               Call.ofstream_close (sync_dir ++ msg.filename),
               Call.utime (sync_dir ++ msg.filename) now msg.file_data.modified]) ++
            [Call.regard (sync_dir ++ msg.filename)]) := by
  refine ⟨body_quiet_not_stale w local_meta sync_dir hist msg hq hs, ?_⟩
  have hc := stale_cond_false _ _ hs
  unfold World.quiet at hq
  simp only [file_master_body, hc, hr]
  cases hd : msg.file_data.deleted
  · refine ⟨w.time (hist ++ [Call.disregard (sync_dir ++ msg.filename),
      Call.log ("Remote Modify: " ++ (sync_dir ++ msg.filename)) LogLevel.NOTICE,
      Call.ofstream_open (sync_dir ++ msg.filename),
      Call.get_file msg.filename msg.file_data.modified,
      Call.ofstream_close (sync_dir ++ msg.filename)]), ?_⟩
    simp [emit_bind, call_bind, time_bind, pure_run, hq, side_effects, Call.is_log, hd]
  · refine ⟨0, ?_⟩
    simp [emit_bind, call_bind, time_bind, pure_run, hq, side_effects, Call.is_log]

/-- C4 at scenario S2: `b.txt` at 200 pushed by the server into an empty directory. -/
theorem remote_apply_brackets_mutation_witness :
    calm_world.quiet ∧ s2_msg.remote = true ∧
    ¬ stale (no_files.get_file s2_msg.filename) s2_msg ∧
    (file_master_body no_files "/sync/" s2_msg calm_world []).val = .ok .finished ∧
    ∃ now : Nat,
      side_effects (file_master_body no_files "/sync/" s2_msg calm_world []).calls =
        Call.disregard ("/sync/" ++ s2_msg.filename) ::
          ((if s2_msg.file_data.deleted = true then
              [Call.recursive_remove ("/sync/" ++ s2_msg.filename)]
            else
              [Call.ofstream_open ("/sync/" ++ s2_msg.filename),
               Call.get_file s2_msg.filename s2_msg.file_data.modified,
               Call.ofstream_close ("/sync/" ++ s2_msg.filename),
               Call.utime ("/sync/" ++ s2_msg.filename) now s2_msg.file_data.modified]) ++
            [Call.regard ("/sync/" ++ s2_msg.filename)]) :=
  ⟨fun _ _ => rfl, rfl, by decide,
    remote_apply_brackets_mutation calm_world no_files "/sync/" [] s2_msg
      (fun _ _ => rfl) rfl (by decide)⟩

/-- C5 (the code at the failing input): when `conn->get_file` throws while the remote
message `b.txt` at 200 is applied, the body ends with the exception right after the
`get_file` call; `disregard` of the path was made and `regard` never is. -/
theorem remote_get_file_throw_skips_regard :
    file_master_body no_files "/sync/" s2_msg closed_conn_world [] =
      { calls := [.disregard "/sync/b.txt",
                  .log "Remote Modify: /sync/b.txt" .NOTICE,
                  .ofstream_open "/sync/b.txt",
                  .get_file "b.txt" 200],
        val := .thrown (.cstr "closed") } ∧
    Call.disregard "/sync/b.txt" ∈
      (file_master_body no_files "/sync/" s2_msg closed_conn_world []).calls ∧
    Call.regard "/sync/b.txt" ∉
      (file_master_body no_files "/sync/" s2_msg closed_conn_world []).calls := by
  decide

/-! ## The apply thread: the loop -/

/-- C6 (the code at the failing input): when `conn->delete_file` throws for the first of
two queued local messages, the exception leaves `file_master`: the run is terminated,
the second message stays in the queue and is never processed. The sibling `push_file`
path does swallow the same exception: both of two queued local modifications are
processed, the failure being logged at WARNING. -/
theorem delete_file_throw_ends_apply_loop :
    file_master closed_conn_world no_files "/sync/" false
        [local_delete_msg, local_modify_msg] [] =
      { status := .terminated (.cstr "closed"),
        messages := [local_modify_msg],
        calls := [.log "Local Delete: /sync/a.txt" .NOTICE, .delete_file "a.txt" 100],
        handled := [(local_delete_msg, .thrown (.cstr "closed"))] } ∧
    file_master closed_conn_world no_files "/sync/" false [s1_msg, local_modify_msg] [] =
      { status := .waiting,
        messages := [],
        calls := [.log "Local Modify: /sync/a.txt" .NOTICE,
                  .ifstream_open "/sync/a.txt",
                  .stat "/sync/a.txt",
                  .push_file "a.txt" 0 0,
                  .log "closed" .WARNING,
                  .ifstream_close "/sync/a.txt",
                  .log "Finished Processing: /sync/a.txt" .NOTICE,
                  .log "Local Modify: /sync/d.txt" .NOTICE,
                  .ifstream_open "/sync/d.txt",
                  .stat "/sync/d.txt",
                  .push_file "d.txt" 0 0,
                  .log "closed" .WARNING,
                  .ifstream_close "/sync/d.txt",
                  .log "Finished Processing: /sync/d.txt" .NOTICE],
        handled := [(s1_msg, .ok .finished), (local_modify_msg, .ok .finished)] } := by
  decide

/-- C7: when `done` is set as the loop condition is evaluated, `file_master` returns at
once, whatever the queue holds: no message is popped, none is processed, and no call
(filesystem, connector, watcher or log) is made. -/
theorem file_master_done_exits_at_once (w : World) (local_meta : Metadata)
    (sync_dir : String) (done : Bool) (messages : List Msg) (hist : List Call)
    (hd : done = true) :
    file_master w local_meta sync_dir done messages hist =
      { status := .exited, messages := messages, calls := [], handled := [] } := by
  subst hd
  cases messages <;> simp [file_master]

/-- C7 at scenario S6: five pending messages, all left in the queue. -/
theorem file_master_done_exits_at_once_witness :
    file_master calm_world no_files "/sync/" true five_pending [] =
      { status := .exited, messages := five_pending, calls := [], handled := [] } :=
  file_master_done_exits_at_once calm_world no_files "/sync/" true five_pending [] rfl

end Libsync
